import Mathlib

/-!
Shallow embedding of the survival-shooter simulation core (game/entities.py,
game/settings.py) and proofs about its collision pass, weapon firing logic,
wave spawner and per-frame world update.

Numeric conventions: Python floats are modelled by an arbitrary linear ordered
field `K` wherever the code only adds, multiplies, compares and truncates
(the collision/combat pass), and by `ℝ` where the code calls into sqrt/trig
(vector normalisation, angle computations of the firing logic).  Python ints
(player health, score, rect coordinates, pierce counters) are `ℤ`.
C float-to-int conversion and Python `int(...)` truncate toward zero.
The `random` module is modelled by oracle streams passed as parameters:
`ParticleDraw` streams for particle bursts and `SpawnChoice` streams for the
wave spawner.  `audio.play` is modelled as an event in the returned log.
Python exceptions escaping a function (the `ValueError` that `list.remove`
raises when the element is absent) are modelled by `Except Unit`.
-/

set_option maxHeartbeats 1600000
set_option linter.unusedSectionVars false

/-- RGB colour triple, as `pygame.Color(r, g, b)`. -/
abbrev Color := ℕ × ℕ × ℕ

/-- Integer rectangle, as `pygame.Rect(x, y, w, h)`. -/
structure Rect where
  x : ℤ
  y : ℤ
  w : ℤ
  h : ℤ
deriving DecidableEq

section GenericField

variable {K : Type} [LinearOrderedField K] [FloorRing K]

/-- Truncation toward zero: C double-to-int conversion and Python `int(...)`. -/
def trunc (q : K) : ℤ := if 0 ≤ q then ⌊q⌋ else ⌈q⌉

/-- Componentwise sum of 2D vectors (`pygame.math.Vector2.__add__`). -/
def vadd (a b : K × K) : K × K := (a.1 + b.1, a.2 + b.2)

/-- Componentwise difference of 2D vectors (`pygame.math.Vector2.__sub__`). -/
def vsub (a b : K × K) : K × K := (a.1 - b.1, a.2 - b.2)

/-- Scalar multiple of a 2D vector (`Vector2.__mul__` with a scalar). -/
def vmul (c : K) (v : K × K) : K × K := (c * v.1, c * v.2)

/-- `Vector2.length_squared()`. -/
def length_squared (v : K × K) : K := v.1 * v.1 + v.2 * v.2

/-- `pygame.Rect.colliderect`: overlap test with min/max normalisation of the
corner coordinates, strict on the far edges, so rects that merely touch (or
have zero extent) do not collide. -/
def Rect.colliderect (a b : Rect) : Bool :=
  (min a.x (a.x + a.w) < max b.x (b.x + b.w)) &&
  (min b.x (b.x + b.w) < max a.x (a.x + a.w)) &&
  (min a.y (a.y + a.h) < max b.y (b.y + b.h)) &&
  (min b.y (b.y + b.h) < max a.y (a.y + a.h))

/-- `pygame.Rect.collidepoint` on float coordinates: the point is truncated to
ints, then tested with the left/top edges inclusive and right/bottom
exclusive. -/
def Rect.collidepoint (r : Rect) (px py : K) : Bool :=
  (r.x ≤ trunc px) && (trunc px < r.x + r.w) && (r.y ≤ trunc py) && (trunc py < r.y + r.h)

/-- `Particle` dataclass. -/
structure Particle (K : Type) where
  position : K × K
  velocity : K × K
  color : Color
  lifetime : K
  radius : K
deriving DecidableEq

/-- `Particle.update`: drift, age, and shrink the radius at 40 units/s with a
floor of 0. -/
def Particle.update (p : Particle K) (dt : K) : Particle K :=
  { p with position := vadd p.position (vmul dt p.velocity),
           lifetime := p.lifetime - dt,
           radius := max 0 (p.radius - 40 * dt) }

/-- `Bullet` dataclass. -/
structure Bullet (K : Type) where
  position : K × K
  velocity : K × K
  color : Color
  damage : K
  radius : K
  pierce : ℤ
  alive : Bool
deriving DecidableEq

/-- `Bullet.update`: dead bullets are untouched; live bullets drift and die
the moment their position leaves the arena rectangle. -/
def Bullet.update (b : Bullet K) (dt : K) (bounds : Rect) : Bullet K :=
  if !b.alive then b
  else
    let pos := vadd b.position (vmul dt b.velocity)
    { b with position := pos, alive := bounds.collidepoint pos.1 pos.2 }

/-- `Enemy` dataclass. -/
structure Enemy (K : Type) where
  position : K × K
  velocity : K × K
  speed : K
  health : K
  max_health : K
  color : Color
  size : ℤ
  name : String
deriving DecidableEq

/-- Out-of-range list reads never happen in the pass; `getD` needs a value. -/
def dummyEnemy : Enemy K :=
  ⟨(0, 0), (0, 0), 0, 0, 0, (0, 0, 0), 0, ""⟩

/-- Same placeholder role for bullets. -/
def dummyBullet : Bullet K :=
  ⟨(0, 0), (0, 0), (0, 0, 0), 0, 6, 0, true⟩

/-- `Enemy.rect`: square of side `size` around the (truncated) position. -/
def Enemy.rect (e : Enemy K) : Rect :=
  ⟨trunc (e.position.1 - (e.size : K) / 2), trunc (e.position.2 - (e.size : K) / 2),
   e.size, e.size⟩

/-- `Enemy.take_damage`. -/
def Enemy.take_damage (e : Enemy K) (amount : K) : Enemy K :=
  { e with health := e.health - amount }

/-- `Enemy.is_dead`. -/
def Enemy.is_dead (e : Enemy K) : Bool := decide (e.health ≤ 0)

/-- `Weapon` dataclass. -/
structure Weapon (K : Type) where
  name : String
  color : Color
  cooldown : K
  bullet_speed : K
  bullet_damage : K
  spread : K
  projectiles : ℕ
  pierce : ℤ
  timer : K
deriving DecidableEq

/-- `Weapon.update`: the cooldown timer decays and is floored at 0. -/
def Weapon.update (w : Weapon K) (dt : K) : Weapon K :=
  { w with timer := max 0 (w.timer - dt) }

/-- `Player` dataclass. -/
structure Player (K : Type) where
  position : K × K
  speed : K
  radius : ℤ
  color : Color
  weapon : Option (Weapon K)
  health : ℤ
deriving DecidableEq

/-- `Player.keep_in_bounds`: clamp the position into the arena inset by the
player's radius (left/right on x, top/bottom on y). -/
def Player.keep_in_bounds (p : Player K) (bounds : Rect) : Player K :=
  { p with position :=
      (max ((bounds.x : K) + (p.radius : K))
         (min (((bounds.x + bounds.w : ℤ) : K) - (p.radius : K)) p.position.1),
       max ((bounds.y : K) + (p.radius : K))
         (min (((bounds.y + bounds.h : ℤ) : K) - (p.radius : K)) p.position.2)) }

end GenericField

section WorldModel

variable {K : Type} [LinearOrderedField K] [FloorRing K]

/-- `settings.SCREEN_WIDTH`. -/
def SCREEN_WIDTH : ℤ := 960

/-- `settings.SCREEN_HEIGHT`. -/
def SCREEN_HEIGHT : ℤ := 540

/-- `settings.PLAYER_SPEED`. -/
def PLAYER_SPEED : ℤ := 240

/-- `settings.PARTICLE_COLORS`. -/
def PARTICLE_COLORS : List Color :=
  [(255, 180, 80), (255, 255, 160), (120, 255, 120), (180, 160, 255)]

/-- Fields of one entry of `settings.ENEMY_TYPES` used by the simulation. -/
structure EnemyInfo where
  speed : ℤ
  health : ℤ
  color : Color
  size : ℤ
deriving DecidableEq

/-- `settings.ENEMY_TYPES` in enumeration order. -/
def ENEMY_TYPES : List (String × EnemyInfo) :=
  [("Sproutling", ⟨100, 30, (120, 255, 120), 26⟩),
   ("Root Beast", ⟨70, 60, (205, 120, 60), 36⟩),
   ("Sporeshroom", ⟨140, 25, (180, 160, 255), 22⟩)]

/-- Fields of one entry of `settings.WEAPON_DEFS`. -/
structure WeaponInfo (K : Type) where
  color : Color
  cooldown : K
  bullet_speed : K
  bullet_damage : K
  spread : K
  projectiles : ℕ
  piercing : ℤ
deriving DecidableEq

/-- `settings.WEAPON_DEFS` in enumeration order (the `piercing` key defaults
to 0 when absent). -/
def WEAPON_DEFS : List (String × WeaponInfo K) :=
  [("Seed Blaster", ⟨(255, 235, 120), 0.25, 520, 15, 0, 1, 0⟩),
   ("Thorn Fork", ⟨(120, 255, 120), 0.6, 420, 12, 12, 3, 0⟩),
   ("Solar Beam", ⟨(255, 180, 80), 0.9, 620, 28, 4, 2, 1⟩)]

/-- `create_weapon`: look the name up in `WEAPON_DEFS`; a `KeyError` on an
unknown name is modelled by `none`. -/
def create_weapon (name : String) : Option (Weapon K) :=
  (WEAPON_DEFS.lookup name).map fun info =>
    ⟨name, info.color, info.cooldown, info.bullet_speed, info.bullet_damage,
     info.spread, info.projectiles, info.piercing, 0⟩

/-- `GameWorld` state owned by the orchestrator. -/
structure GameWorld (K : Type) where
  bounds : Rect
  player : Player K
  enemies : List (Enemy K)
  bullets : List (Bullet K)
  particles : List (Particle K)
  elapsed : K
  spawn_timer : K
  spawn_interval : K
  score : ℤ
  weapon_name : Option String
deriving DecidableEq

/-- The fresh world built by `GameWorld.__init__` before any weapon is set. -/
def freshWorld : GameWorld K where
  bounds := ⟨0, 0, SCREEN_WIDTH, SCREEN_HEIGHT⟩
  player := ⟨(((SCREEN_WIDTH / 2 : ℤ) : K), ((SCREEN_HEIGHT / 2 : ℤ) : K)),
             (PLAYER_SPEED : K), 24, (120, 200, 120), none, 100⟩
  enemies := []
  bullets := []
  particles := []
  elapsed := 0
  spawn_timer := 0
  spawn_interval := 1.4
  score := 0
  weapon_name := none

/-- `GameWorld.set_weapon`. -/
def GameWorld.set_weapon (w : GameWorld K) (wp : Weapon K) : GameWorld K :=
  { w with weapon_name := some wp.name,
           player := { w.player with weapon := some wp } }

/-- `GameWorld.__init__ (weapon_name)`: the truthiness test skips empty or
absent names; an unknown non-empty name raises (modelled by `none`). -/
def GameWorld.init (weapon_name : Option String) : Option (GameWorld K) :=
  match weapon_name with
  | none => some freshWorld
  | some s =>
      if s = "" then some freshWorld
      else (create_weapon s).map fun wp => GameWorld.set_weapon freshWorld wp

/-- Observable side effects of one frame: `audio.play` calls plus markers for
the two enemy-removal sites of the combat pass (the marker carries the enemy
value at removal time). -/
inductive Event (K : Type) where
  | audio (name : String)
  | killByContact (e : Enemy K)
  | killByBullet (e : Enemy K)
deriving DecidableEq

/-- Whether an event is the bullet-kill marker (the `score += 5` site). -/
def Event.isKillByBullet : Event K → Bool
  | .killByBullet _ => true
  | _ => false

/-- One draw of the `random` module inside `spawn_particles`: velocity
components, palette choice, lifetime and radius. -/
structure ParticleDraw (K : Type) where
  vx : K
  vy : K
  colorIdx : ℕ
  lifetime : K
  radius : K
deriving DecidableEq

/-- `GameWorld.spawn_particles`: 12 particles at the given position, colours
drawn from the fixed palette extended with the impact colour.  `pd` is the
random stream (burst number, particle number) and `pc` the burst counter. -/
def spawn_particles (pd : ℕ → ℕ → ParticleDraw K) (pc : ℕ)
    (position : K × K) (color : Color) : List (Particle K) :=
  let palette := PARTICLE_COLORS ++ [color]
  (List.range 12).map fun j =>
    let d := pd pc j
    ⟨position, (d.vx, d.vy), palette.getD (d.colorIdx % palette.length) color,
     d.lifetime, d.radius⟩

/-- Mutable state threaded through `handle_collisions`: `heap` holds the
enemy objects of the snapshot `list(self.enemies)` (mutated in place through
their index), `alive` is the live `self.enemies` list as indices into the
heap, and `pc` counts particle bursts (the random-stream position). -/
structure PassSt (K : Type) where
  heap : List (Enemy K)
  alive : List ℕ
  bullets : List (Bullet K)
  health : ℤ
  score : ℤ
  particles : List (Particle K)
  pc : ℕ
  events : List (Event K)

/-- Python `list.remove(v)` on `self.enemies`: drop the first index whose
enemy value equals `v`; `none` models the `ValueError` when no element is
equal. -/
def removeFirstIdx (heap : List (Enemy K)) (v : Enemy K) : List ℕ → Option (List ℕ)
  | [] => none
  | j :: rest =>
      if heap.getD j dummyEnemy = v then some rest
      else (removeFirstIdx heap v rest).map (j :: ·)

/-- The square `pygame.Rect` circumscribing the player circle, positioned by
the `player_rect.center = position` assignment (coordinates truncated to
ints, center setter using truncating division of the width). -/
def playerRect (p : Player K) : Rect :=
  ⟨trunc p.position.1 - Int.tdiv (p.radius * 2) 2,
   trunc p.position.2 - Int.tdiv (p.radius * 2) 2,
   p.radius * 2, p.radius * 2⟩

/-- The enemy-vs-player contact check of `handle_collisions` for the snapshot
enemy at heap index `i`: on bounding-box overlap the player takes 10 damage,
a burst and a hit sound fire, the enemy is dealt its own health (hence dies),
and it is removed from `self.enemies` when (value-)present there. -/
def contact_step (pd : ℕ → ℕ → ParticleDraw K) (pr : Rect) (i : ℕ)
    (st : PassSt K) : PassSt K :=
  let e := st.heap.getD i dummyEnemy
  if e.rect.colliderect pr then
    let health := st.health - 10
    let particles := st.particles ++ spawn_particles pd st.pc e.position e.color
    let events := st.events ++ [Event.audio "hit"]
    let e' := e.take_damage e.health
    let heap := st.heap.set i e'
    if e'.is_dead then
      match removeFirstIdx heap e' st.alive with
      | some alive' =>
          { st with health := health, particles := particles, pc := st.pc + 1,
                    events := events ++ [Event.killByContact e'],
                    heap := heap, alive := alive' }
      | none =>
          { st with health := health, particles := particles, pc := st.pc + 1,
                    events := events, heap := heap }
    else
      { st with health := health, particles := particles, pc := st.pc + 1,
                events := events, heap := heap }
  else st

/-- The bullet-hit test of the combat pass: the bullet is still alive and its
position lies inside the enemy's bounding box
(`bullet.alive and enemy.rect.collidepoint(bullet.position)`). -/
def hits (e : Enemy K) (b : Bullet K) : Bool :=
  b.alive && e.rect.collidepoint b.position.1 b.position.2

/-- Index of the first bullet of the snapshot that registers a hit on `e`
(the one the combat loop processes before breaking), if any. -/
def first_hit (e : Enemy K) (bullets : List (Bullet K)) : List ℕ → Option ℕ
  | [] => none
  | k :: rest =>
      if hits e (bullets.getD k dummyBullet) then some k
      else first_hit e bullets rest

/-- The enemy-vs-bullet loop of `handle_collisions` for the snapshot enemy at
heap index `i`, over the snapshot `list(self.bullets)` given as indices `ks`.
The first live bullet inside the enemy's box damages it, fires a burst and a
hit sound; if the enemy's health drops to 0 or below, 5 score is awarded, a
second burst fires, and the enemy is removed from `self.enemies` — a removal
that raises `ValueError` (`.error ()`) when it is not there.  The bullet then
loses a pierce charge or dies, and the loop breaks. -/
def bullet_scan (pd : ℕ → ℕ → ParticleDraw K) (i : ℕ) :
    List ℕ → PassSt K → Except Unit (PassSt K)
  | [], st => .ok st
  | k :: rest, st =>
      let e := st.heap.getD i dummyEnemy
      let b := st.bullets.getD k dummyBullet
      if hits e b then
        let e1 := e.take_damage b.damage
        let st1 : PassSt K :=
          { st with heap := st.heap.set i e1,
                    particles := st.particles ++ spawn_particles pd st.pc b.position b.color,
                    pc := st.pc + 1,
                    events := st.events ++ [Event.audio "hit"] }
        let killRes : Except Unit (PassSt K) :=
          if e1.is_dead then
            match removeFirstIdx st1.heap e1 st1.alive with
            | none => .error ()
            | some alive' =>
                .ok { st1 with score := st1.score + 5,
                               particles := st1.particles ++
                                 spawn_particles pd st1.pc e1.position e1.color,
                               pc := st1.pc + 1, alive := alive',
                               events := st1.events ++ [Event.killByBullet e1] }
          else .ok st1
        match killRes with
        | .error u => .error u
        | .ok st2 =>
            let b' := if 0 < b.pierce then { b with pierce := b.pierce - 1 }
                      else { b with alive := false }
            .ok { st2 with bullets := st2.bullets.set k b' }
      else bullet_scan pd i rest st

/-- One snapshot enemy of `handle_collisions`: the player-contact check, then
(unconditionally) the bullet loop for the same enemy. -/
def enemy_step (pd : ℕ → ℕ → ParticleDraw K) (pr : Rect) (i : ℕ)
    (st : PassSt K) : Except Unit (PassSt K) :=
  bullet_scan pd i (List.range st.bullets.length) (contact_step pd pr i st)

/-- The outer `for enemy in list(self.enemies)` loop. -/
def enemy_loop (pd : ℕ → ℕ → ParticleDraw K) (pr : Rect) :
    List ℕ → PassSt K → Except Unit (PassSt K)
  | [], st => .ok st
  | i :: rest, st =>
      match enemy_step pd pr i st with
      | .error u => .error u
      | .ok st' => enemy_loop pd pr rest st'

/-- `GameWorld.handle_collisions`: run the pass over a snapshot of the enemy
list, then clamp player health at a floor of 0.  Returns the new world, the
advanced burst counter and the event log. -/
def GameWorld.handle_collisions (pd : ℕ → ℕ → ParticleDraw K)
    (w : GameWorld K) (pc : ℕ) :
    Except Unit (GameWorld K × ℕ × List (Event K)) :=
  let st0 : PassSt K :=
    ⟨w.enemies, List.range w.enemies.length, w.bullets, w.player.health,
     w.score, w.particles, pc, []⟩
  match enemy_loop pd (playerRect w.player) (List.range w.enemies.length) st0 with
  | .error u => .error u
  | .ok st =>
      let health := if st.health ≤ 0 then 0 else st.health
      .ok ({ w with enemies := st.alive.map fun j => st.heap.getD j dummyEnemy,
                    bullets := st.bullets,
                    player := { w.player with health := health },
                    score := st.score, particles := st.particles },
           st.pc, st.events)

/-- One triple of `random` draws consumed per spawned enemy: the weighted
archetype choice, the edge choice, and the `randint` coordinate along it. -/
structure SpawnChoice where
  typeIdx : Fin 3
  edge : Fin 4
  coord : ℤ
deriving DecidableEq

/-- Build one enemy of `spawn_enemy_wave` from one draw: edges in the source
order top/bottom/left/right place it just outside the arena. -/
def spawn_one (c : SpawnChoice) : Enemy K :=
  let ti := ENEMY_TYPES.getD c.typeIdx ("Sproutling", ⟨100, 30, (120, 255, 120), 26⟩)
  let info := ti.2
  let pos : K × K :=
    if c.edge = 0 then ((c.coord : K), ((-info.size : ℤ) : K))
    else if c.edge = 1 then ((c.coord : K), ((SCREEN_HEIGHT + info.size : ℤ) : K))
    else if c.edge = 2 then (((-info.size : ℤ) : K), (c.coord : K))
    else (((SCREEN_WIDTH + info.size : ℤ) : K), (c.coord : K))
  ⟨pos, (0, 0), (info.speed : K), (info.health : K), (info.health : K),
   info.color, info.size, ti.1⟩

/-- `GameWorld.spawn_enemy_wave`: append `1 + int(elapsed // 12)` enemies
drawn from the stream `sd` starting at counter `sc`; returns the advanced
counter. -/
def spawn_enemy_wave (w : GameWorld K) (sd : ℕ → SpawnChoice) (sc : ℕ) :
    GameWorld K × ℕ :=
  let spawn_count := (1 + ⌊w.elapsed / 12⌋).toNat
  ({ w with enemies := w.enemies ++
      (List.range spawn_count).map fun j => spawn_one (sd (sc + j)) },
   sc + spawn_count)

/-- The timer reset applied when a wave spawns:
`max(0.4, spawn_interval - elapsed * 0.01)`. -/
def spawn_reset (si e : K) : K := max 0.4 (si - e * 0.01)

end WorldModel

section RealModel

/-- `Vector2.normalize()`: divide by the Euclidean length. -/
noncomputable def Vec.normalize (v : ℝ × ℝ) : ℝ × ℝ :=
  let L := Real.sqrt (v.1 * v.1 + v.2 * v.2)
  (v.1 / L, v.2 / L)

/-- `math.atan2(y, x)`, via the complex argument of `x + y i`. -/
noncomputable def atan2 (y x : ℝ) : ℝ := Complex.arg ⟨x, y⟩

/-- `Vector2.angle_to(other)`: difference of the polar angles, in degrees. -/
noncomputable def angle_to (v u : ℝ × ℝ) : ℝ :=
  (atan2 u.2 u.1 - atan2 v.2 v.1) * 180 / Real.pi

/-- `Vector2.rotate(angle)`: counterclockwise rotation by `angle` degrees. -/
noncomputable def rotate (v : ℝ × ℝ) (ang : ℝ) : ℝ × ℝ :=
  let r := ang * Real.pi / 180
  (Real.cos r * v.1 - Real.sin r * v.2, Real.sin r * v.1 + Real.cos r * v.2)

/-- `Weapon.try_fire(position, target)`: returns the weapon after the call
(its timer is mutated) together with the bullet burst.  A positive cooldown
timer gates the shot; a degenerate aim vector falls back to the fixed
reference direction (1, 0); shot `i` of `projectiles` flies at
`base_angle - spread/2 + i * spread_step` degrees. -/
noncomputable def Weapon.try_fire (w : Weapon ℝ) (position target : ℝ × ℝ) :
    Weapon ℝ × List (Bullet ℝ) :=
  if 0 < w.timer then (w, [])
  else
    let direction := vsub target position
    let direction := if length_squared direction = 0 then ((1 : ℝ), (0 : ℝ)) else direction
    let base_angle := angle_to direction (1, 0)
    let spread_step := if 1 < w.projectiles then w.spread / (max 1 (w.projectiles - 1) : ℕ) else 0
    let start_angle := base_angle - w.spread / 2
    let bullets := (List.range w.projectiles).map fun (i : ℕ) =>
      let angle := start_angle + (i : ℝ) * spread_step
      let vector := rotate (1, 0) (-angle)
      (⟨position, vmul w.bullet_speed vector, w.color, w.bullet_damage, 6,
        w.pierce, true⟩ : Bullet ℝ)
    ({ w with timer := w.cooldown }, bullets)

/-- Snapshot of the held movement keys (W/up, S/down, A/left, D/right). -/
structure Keys where
  up : Bool
  down : Bool
  left : Bool
  right : Bool
deriving DecidableEq

/-- `Player.handle_input`: accumulate a unit direction from the held keys,
normalise it when nonzero, and advance by `speed * dt`. -/
noncomputable def Player.handle_input (p : Player ℝ) (dt : ℝ) (keys : Keys) :
    Player ℝ :=
  let vy : ℝ := (if keys.up then -1 else 0) + (if keys.down then 1 else 0)
  let vx : ℝ := (if keys.left then -1 else 0) + (if keys.right then 1 else 0)
  let v : ℝ × ℝ := (vx, vy)
  let v := if 0 < length_squared v then Vec.normalize v else v
  { p with position := vadd p.position (vmul (p.speed * dt) v) }

/-- `Enemy.update`: seek the player (normalised chase direction, zero when
coincident), set the velocity and advance. -/
noncomputable def Enemy.update (e : Enemy ℝ) (dt : ℝ) (player_pos : ℝ × ℝ) :
    Enemy ℝ :=
  let direction := vsub player_pos e.position
  let direction := if 0 < length_squared direction then Vec.normalize direction else direction
  let velocity := vmul e.speed direction
  { e with velocity := velocity, position := vadd e.position (vmul dt velocity) }

/-- External per-frame input snapshot: keys, pointer position, primary-fire
held state. -/
structure Env where
  keys : Keys
  mouse_pos : ℝ × ℝ
  mouse_pressed : Bool

/-- The opening of `GameWorld.update`: advance `elapsed`, handle movement
input, clamp into bounds, and tick the weapon cooldown when equipped. -/
noncomputable def pre_world (w : GameWorld ℝ) (dt : ℝ) (env : Env) : GameWorld ℝ :=
  let w := { w with elapsed := w.elapsed + dt }
  let w := { w with player := (w.player.handle_input dt env.keys).keep_in_bounds w.bounds }
  match w.player.weapon with
  | none => w
  | some wp => { w with player := { w.player with weapon := some (Weapon.update wp dt) } }

/-- The firing block of `GameWorld.update`: with fire held, a weapon equipped
and the player alive, `try_fire` runs (mutating the weapon timer); a nonempty
burst is appended to the bullets and plays the shoot sound. -/
noncomputable def fire_step (w : GameWorld ℝ) (env : Env) :
    GameWorld ℝ × List (Event ℝ) :=
  if env.mouse_pressed = true ∧ w.player.weapon.isSome = true ∧ 0 < w.player.health then
    match w.player.weapon with
    | none => (w, [])
    | some wp =>
        let r := wp.try_fire w.player.position env.mouse_pos
        let w' := { w with player := { w.player with weapon := some r.1 } }
        if r.2 = [] then (w', [])
        else ({ w' with bullets := w'.bullets ++ r.2 }, [Event.audio "shoot"])
  else (w, [])

/-- The kinematics block of `GameWorld.update`: move bullets and drop dead
ones, then move enemies toward the player. -/
noncomputable def move_step (w : GameWorld ℝ) (dt : ℝ) : GameWorld ℝ :=
  let w := { w with bullets := (w.bullets.map fun b => Bullet.update b dt w.bounds).filter
                      fun b => b.alive }
  { w with enemies := w.enemies.map fun e => Enemy.update e dt w.player.position }

/-- The tail of `GameWorld.update` after the collision pass: age and prune
particles; then, only when the player is alive, run the spawn timer and
possibly spawn a wave, resetting the timer with `spawn_reset`. -/
noncomputable def post_step (w1 : GameWorld ℝ) (dt : ℝ) (sd : ℕ → SpawnChoice)
    (sc : ℕ) : GameWorld ℝ × ℕ :=
  let w1 := { w1 with particles := (w1.particles.map fun p => Particle.update p dt).filter
                        fun p => decide (0 < p.lifetime) && decide (0 < p.radius) }
  if ¬ 0 < w1.player.health then (w1, sc)
  else
    let w1 := { w1 with spawn_timer := w1.spawn_timer - dt }
    if w1.spawn_timer ≤ 0 then
      let r := spawn_enemy_wave w1 sd sc
      ({ r.1 with spawn_timer := spawn_reset r.1.spawn_interval r.1.elapsed }, r.2)
    else (w1, sc)

/-- `GameWorld.update(dt)`: one frame, composed exactly in source order.
Returns the new world, both random-stream counters and the frame's event
log, or propagates the collision pass's exception. -/
noncomputable def GameWorld.update (w : GameWorld ℝ) (dt : ℝ) (env : Env)
    (pd : ℕ → ℕ → ParticleDraw ℝ) (sd : ℕ → SpawnChoice) (pc sc : ℕ) :
    Except Unit (GameWorld ℝ × ℕ × ℕ × List (Event ℝ)) :=
  let wa := pre_world w dt env
  let fr := fire_step wa env
  let wc := move_step fr.1 dt
  match GameWorld.handle_collisions pd wc pc with
  | .error u => .error u
  | .ok (w1, pc1, log1) =>
      let r := post_step w1 dt sd sc
      .ok (r.1, pc1, r.2, fr.2 ++ log1)

/-- The effective aim direction of `try_fire`: the raw vector to the target,
with the degenerate zero vector replaced by the fixed reference (1, 0). -/
noncomputable def aimDir (position target : ℝ × ℝ) : ℝ × ℝ :=
  let d := vsub target position
  if length_squared d = 0 then ((1 : ℝ), (0 : ℝ)) else d

/-- The angle (in degrees) of shot `i` of a burst, as computed by
`try_fire`: `base_angle - spread/2 + i * spread_step`. -/
noncomputable def shotAngle (w : Weapon ℝ) (position target : ℝ × ℝ) (i : ℕ) : ℝ :=
  angle_to (aimDir position target) (1, 0) - w.spread / 2 +
    (i : ℝ) * (w.spread / (max 1 (w.projectiles - 1) : ℕ))

end RealModel

section ConcreteStates

/-- Constant stream standing in for the `random` draws of particle bursts in
the concrete frames below. -/
def pdQ : ℕ → ℕ → ParticleDraw ℚ := fun _ _ => ⟨0, 0, 0, 1, 1⟩

/-- Whether an `Except` computation succeeded. -/
def isOkE {α : Type} : Except Unit α → Bool
  | .ok _ => true
  | .error _ => false

/-- A frame with one enemy overlapping the player while a live bullet lies
inside that enemy's bounding box. -/
def wC1 : GameWorld ℚ :=
  { bounds := ⟨0, 0, 960, 540⟩,
    player := ⟨(100, 100), 240, 24, (120, 200, 120), none, 50⟩,
    enemies := [⟨(100, 100), (0, 0), 100, 30, 30, (1, 2, 3), 26, "E"⟩],
    bullets := [⟨(100, 100), (0, 0), (9, 9, 9), 15, 6, 0, true⟩],
    particles := [], elapsed := 0, spawn_timer := 0, spawn_interval := 1.4,
    score := 0, weapon_name := none }

/-- A frame with one enemy away from the player and one bullet inside it
whose damage (40) exceeds the enemy's health (30). -/
def wC2 : GameWorld ℚ :=
  { bounds := ⟨0, 0, 960, 540⟩,
    player := ⟨(100, 100), 240, 24, (120, 200, 120), none, 100⟩,
    enemies := [⟨(300, 300), (0, 0), 100, 30, 30, (1, 2, 3), 26, "E"⟩],
    bullets := [⟨(300, 300), (0, 0), (9, 9, 9), 40, 6, 0, true⟩],
    particles := [], elapsed := 0, spawn_timer := 0, spawn_interval := 1.4,
    score := 0, weapon_name := none }

/-- The `wC2` enemy after taking 40 bullet damage. -/
def eC2dead : Enemy ℚ := ⟨(300, 300), (0, 0), 100, -10, 30, (1, 2, 3), 26, "E"⟩

/-- Particle produced by every draw of `pdQ` at position (300, 300). -/
def pQ300 : Particle ℚ := ⟨(300, 300), (0, 0), (255, 180, 80), 1, 1⟩

/-- Particle produced by every draw of `pdQ` at position (305, 300). -/
def pQ305 : Particle ℚ := ⟨(305, 300), (0, 0), (255, 180, 80), 1, 1⟩

/-- Expected result world of the collision pass on `wC2`. -/
def wC2after : GameWorld ℚ :=
  { wC2 with enemies := [],
             bullets := [⟨(300, 300), (0, 0), (9, 9, 9), 40, 6, 0, false⟩],
             score := 5, particles := List.replicate 24 pQ300 }

/-- Expected event log of the collision pass on `wC2`. -/
def logC2 : List (Event ℚ) := [Event.audio "hit", Event.killByBullet eC2dead]

/-- Two enemies with overlapping interiors at (300, 300)/(305, 300). -/
def eA : Enemy ℚ := ⟨(300, 300), (0, 0), 100, 30, 30, (1, 2, 3), 26, "A"⟩

/-- Second enemy of the pierce scenario. -/
def eB : Enemy ℚ := ⟨(305, 300), (0, 0), 100, 30, 30, (1, 2, 3), 26, "B"⟩

/-- A pierce-1 bullet inside both enemies, damage 40. -/
def bW : Bullet ℚ := ⟨(300, 300), (0, 0), (9, 9, 9), 40, 6, 1, true⟩

/-- Pass state holding `eA`, `eB` and the pierce-1 bullet. -/
def stW : PassSt ℚ := ⟨[eA, eB], [0, 1], [bW], 100, 0, [], 0, []⟩

/-- `eA` after the 40-damage hit. -/
def eAdead : Enemy ℚ := ⟨(300, 300), (0, 0), 100, -10, 30, (1, 2, 3), 26, "A"⟩

/-- `eB` after the 40-damage hit. -/
def eBdead : Enemy ℚ := ⟨(305, 300), (0, 0), 100, -10, 30, (1, 2, 3), 26, "B"⟩

/-- Expected pass state after the bullet loop of the first enemy: the bullet
spent its pierce charge but is still alive. -/
def stWmid : PassSt ℚ :=
  ⟨[eAdead, eB], [1], [⟨(300, 300), (0, 0), (9, 9, 9), 40, 6, 0, true⟩],
   100, 5, List.replicate 24 pQ300, 2,
   [Event.audio "hit", Event.killByBullet eAdead]⟩

/-- Expected pass state after the bullet loop of the second enemy: the same
bullet hit again and died. -/
def stWend : PassSt ℚ :=
  ⟨[eAdead, eBdead], [], [⟨(300, 300), (0, 0), (9, 9, 9), 40, 6, 0, false⟩],
   100, 10, List.replicate 36 pQ300 ++ List.replicate 12 pQ305, 4,
   [Event.audio "hit", Event.killByBullet eAdead,
    Event.audio "hit", Event.killByBullet eBdead]⟩

/-- The "Seed Blaster" weapon with a cold timer. -/
noncomputable def sbW : Weapon ℝ := ⟨"Seed Blaster", (255, 235, 120), 0.25, 520, 15, 0, 1, 0, 0⟩

/-- The "Thorn Fork" weapon (3 projectiles, 12 degree spread), cold timer. -/
noncomputable def tfW : Weapon ℝ := ⟨"Thorn Fork", (120, 255, 120), 0.6, 420, 12, 12, 3, 0, 0⟩

/-- A single-projectile weapon with unit bullet speed and a wide spread of
180 degrees, cold timer. -/
noncomputable def c3W : Weapon ℝ := ⟨"T", (0, 0, 0), 0.25, 1, 1, 180, 1, 0, 0⟩

/-- Input snapshot with no keys held, pointer at the origin, fire released. -/
noncomputable def envN : Env := ⟨⟨false, false, false, false⟩, (0, 0), false⟩

/-- Constant particle-randomness stream over the reals. -/
noncomputable def pdR : ℕ → ℕ → ParticleDraw ℝ := fun _ _ => ⟨0, 0, 0, 1, 1⟩

/-- Constant spawn-randomness stream: Sproutling, top edge, coordinate 100. -/
def sdR : ℕ → SpawnChoice := fun _ => ⟨0, 0, 100⟩

/-- A dead-player world with no entities and a spawn timer far from firing. -/
noncomputable def wDead : GameWorld ℝ :=
  { bounds := ⟨0, 0, 960, 540⟩,
    player := ⟨(480, 270), 240, 24, (120, 200, 120), none, 0⟩,
    enemies := [], bullets := [], particles := [],
    elapsed := 0, spawn_timer := 5, spawn_interval := 1.4, score := 0,
    weapon_name := none }

/-- The enemy produced by `spawn_one` from the draw `sdR 0`. -/
noncomputable def spawnedE : Enemy ℝ :=
  ⟨(100, -26), (0, 0), 100, 30, 30, (120, 255, 120), 26, "Sproutling"⟩

/-- Expected world after one 1-second frame on the fresh world: elapsed
advanced, one wave of one enemy spawned, timer reset to 1.39. -/
noncomputable def wSpawn : GameWorld ℝ :=
  { (freshWorld : GameWorld ℝ) with
      elapsed := 1, spawn_timer := 1.39, enemies := [spawnedE] }

end ConcreteStates

section PassLemmas

variable {K : Type} [LinearOrderedField K] [FloorRing K]

/-- Number of bullet-kill markers in a log, as an integer. -/
def countB (l : List (Event K)) : ℤ := (l.countP Event.isKillByBullet : ℤ)

/-- Frame invariant relating a pass state to a later one: player health only
drops, the score moves in lockstep with the bullet-kill markers (5 points
each), the bullet list keeps its length, the live-enemy list only loses
members, and every new event is something other than the shoot sound. -/
def passInv (st st' : PassSt K) : Prop :=
  st'.health ≤ st.health ∧
  st'.score - 5 * countB st'.events = st.score - 5 * countB st.events ∧
  st'.bullets.length = st.bullets.length ∧
  st'.alive.Sublist st.alive ∧
  ∀ ev, ev ∈ st'.events → ev ∈ st.events ∨ ¬ ev = Event.audio "shoot"

lemma passInv_refl (st : PassSt K) : passInv st st :=
  ⟨le_refl _, rfl, rfl, List.Sublist.refl _, fun _ h => Or.inl h⟩

lemma passInv_trans {a b c : PassSt K} (h1 : passInv a b) (h2 : passInv b c) :
    passInv a c := by
  obtain ⟨l1, s1, b1, a1, e1⟩ := h1
  obtain ⟨l2, s2, b2, a2, e2⟩ := h2
  refine ⟨le_trans l2 l1, by rw [s2, s1], by rw [b2, b1], a2.trans a1, ?_⟩
  intro ev hev
  rcases e2 ev hev with h | h
  · exact e1 ev h
  · exact Or.inr h

lemma countB_append (l1 l2 : List (Event K)) :
    countB (l1 ++ l2) = countB l1 + countB l2 := by
  simp [countB, List.countP_append]

lemma countB_hit : countB [(Event.audio "hit" : Event K)] = 0 := by
  simp [countB, List.countP_cons, List.countP_nil, Event.isKillByBullet]

lemma countB_contact (e : Enemy K) : countB [Event.killByContact e] = 0 := by
  simp [countB, List.countP_cons, List.countP_nil, Event.isKillByBullet]

lemma countB_bullet (e : Enemy K) : countB [Event.killByBullet e] = 1 := by
  simp [countB, List.countP_cons, List.countP_nil, Event.isKillByBullet]

lemma removeFirstIdx_sublist (heap : List (Enemy K)) (v : Enemy K) :
    ∀ alive l, removeFirstIdx heap v alive = some l → l.Sublist alive
  | [], l, h => by simp [removeFirstIdx] at h
  | j :: rest, l, h => by
      simp only [removeFirstIdx] at h
      split at h
      · cases h
        exact (List.sublist_cons_self j rest)
      · cases hrec : removeFirstIdx heap v rest with
        | none => rw [hrec] at h; cases h
        | some l0 =>
            rw [hrec] at h
            cases h
            exact List.Sublist.cons₂ j (removeFirstIdx_sublist heap v rest l0 hrec)

lemma contact_inv (pd : ℕ → ℕ → ParticleDraw K) (pr : Rect) (i : ℕ)
    (st : PassSt K) : passInv st (contact_step pd pr i st) := by
  simp only [contact_step]
  split
  · split
    · split
      case h_1 alive' hrem =>
        unfold passInv
        dsimp only
        refine ⟨by omega, ?_, rfl, removeFirstIdx_sublist _ _ _ _ hrem, ?_⟩
        · rw [countB_append, countB_append, countB_hit, countB_contact]; ring
        · intro ev hev
          rcases List.mem_append.mp hev with h | h
          · rcases List.mem_append.mp h with h2 | h2
            · exact Or.inl h2
            · right; simp_all
          · right; simp_all
      case h_2 hrem =>
        unfold passInv
        dsimp only
        refine ⟨by omega, ?_, rfl, List.Sublist.refl _, ?_⟩
        · rw [countB_append, countB_hit]; ring
        · intro ev hev
          rcases List.mem_append.mp hev with h | h
          · exact Or.inl h
          · right; simp_all
    · unfold passInv
      dsimp only
      refine ⟨by omega, ?_, rfl, List.Sublist.refl _, ?_⟩
      · rw [countB_append, countB_hit]; ring
      · intro ev hev
        rcases List.mem_append.mp hev with h | h
        · exact Or.inl h
        · right; simp_all
  · exact passInv_refl st

lemma scan_inv (pd : ℕ → ℕ → ParticleDraw K) (i : ℕ) :
    ∀ (ks : List ℕ) (st st' : PassSt K),
      bullet_scan pd i ks st = .ok st' → passInv st st'
  | [], st, st', h => by
      simp only [bullet_scan] at h
      cases h
      exact passInv_refl st
  | k :: rest, st, st', h => by
      simp only [bullet_scan] at h
      split at h
      · split at h
        · cases h
        case h_2 st2 heq =>
          cases h
          split at heq
          · split at heq
            · cases heq
            case h_2 alive' hrem =>
              cases heq
              unfold passInv
              dsimp only
              refine ⟨le_refl _, ?_, by simp, removeFirstIdx_sublist _ _ _ _ hrem, ?_⟩
              · rw [countB_append, countB_append, countB_hit, countB_bullet]; ring
              · intro ev hev
                rcases List.mem_append.mp hev with h | h
                · rcases List.mem_append.mp h with h2 | h2
                  · exact Or.inl h2
                  · right; simp_all
                · right; simp_all
          · cases heq
            unfold passInv
            dsimp only
            refine ⟨le_refl _, ?_, by simp, List.Sublist.refl _, ?_⟩
            · rw [countB_append, countB_hit]; ring
            · intro ev hev
              rcases List.mem_append.mp hev with h | h
              · exact Or.inl h
              · right; simp_all
      · exact scan_inv pd i rest st st' h

lemma loop_inv (pd : ℕ → ℕ → ParticleDraw K) (pr : Rect) :
    ∀ (idxs : List ℕ) (st st' : PassSt K),
      enemy_loop pd pr idxs st = .ok st' → passInv st st'
  | [], st, st', h => by
      simp only [enemy_loop] at h
      cases h
      exact passInv_refl st
  | i :: rest, st, st', h => by
      simp only [enemy_loop] at h
      cases hstep : enemy_step pd pr i st with
      | error u => rw [hstep] at h; cases h
      | ok stm =>
          rw [hstep] at h
          unfold enemy_step at hstep
          exact passInv_trans
            (passInv_trans (contact_inv pd pr i st) (scan_inv pd i _ _ _ hstep))
            (loop_inv pd pr rest stm st' h)

lemma handle_collisions_ok (pd : ℕ → ℕ → ParticleDraw K) (w : GameWorld K)
    (pc : ℕ) (w' : GameWorld K) (pc' : ℕ) (log : List (Event K))
    (h : GameWorld.handle_collisions pd w pc = .ok (w', pc', log)) :
    0 ≤ w'.player.health ∧
    w'.score = w.score + 5 * countB log ∧
    w'.bullets.length = w.bullets.length ∧
    w'.enemies.length ≤ w.enemies.length ∧
    (w.player.health ≤ 0 → w'.player.health = 0) ∧
    (∀ ev, ev ∈ log → ¬ ev = Event.audio "shoot") ∧
    w'.spawn_timer = w.spawn_timer ∧ w'.spawn_interval = w.spawn_interval ∧
    w'.elapsed = w.elapsed ∧ w'.player.weapon = w.player.weapon ∧
    w'.player.position = w.player.position ∧ w'.bounds = w.bounds ∧
    w'.weapon_name = w.weapon_name ∧ w'.player.radius = w.player.radius ∧
    w'.player.speed = w.player.speed := by
  simp only [GameWorld.handle_collisions] at h
  split at h
  · cases h
  case h_2 st hloop =>
    have hp := loop_inv pd (playerRect w.player)
      (List.range w.enemies.length) _ st hloop
    obtain ⟨hh, hs, hb, ha, he⟩ := hp
    cases h
    try dsimp only at hh
    try dsimp only at hs
    try dsimp only at hb
    try dsimp only at ha
    try dsimp only at he
    try dsimp only
    refine ⟨?_, ?_, hb, ?_, ?_, ?_, rfl, rfl, rfl, rfl, rfl, rfl, rfl, rfl, rfl⟩
    · split <;> omega
    · simp only [countB, List.countP_nil] at hs ⊢
      omega
    · calc (st.alive.map fun j => st.heap.getD j dummyEnemy).length
          = st.alive.length := List.length_map _ _
        _ ≤ (List.range w.enemies.length).length := ha.length_le
        _ = w.enemies.length := List.length_range _
    · intro h0
      split
      · rfl
      · omega
    · intro ev hev
      rcases he ev hev with h2 | h2
      · simp at h2
      · exact h2

section CollisionClaims

lemma range1 : List.range 1 = [0] := rfl

lemma range2 : List.range 2 = [0, 1] := rfl

lemma range12 : List.range 12 = [0, 1, 2, 3, 4, 5, 6, 7, 8, 9, 10, 11] := rfl

/-- C1: the spec says an enemy removed by the player-contact check skips the
bullet-hit check in the same frame.  The code does not skip it: in `wC1` the
enemy is killed and removed by the contact check, yet the bullet loop still
processes it, applies bullet damage, awards score and then calls
`self.enemies.remove(enemy)` a second time, which raises `ValueError` — the
pass aborts.  Removing the bullet from the frame makes the pass succeed,
isolating the crash to the bullet check running on the contact-killed
enemy. -/
theorem c1_contact_killed_enemy_still_bullet_checked :
    GameWorld.handle_collisions pdQ wC1 0 = .error () ∧
    isOkE (GameWorld.handle_collisions pdQ { wC1 with bullets := [] } 0) = true := by
  constructor <;>
    norm_num [GameWorld.handle_collisions, enemy_loop, enemy_step, contact_step,
      bullet_scan, hits, Enemy.rect, Rect.colliderect, Rect.collidepoint, trunc,
      playerRect, Enemy.take_damage, Enemy.is_dead, removeFirstIdx,
      spawn_particles, PARTICLE_COLORS, wC1, pdQ, Int.tdiv, range1, range12,
      dummyEnemy, dummyBullet, isOkE, List.getD, List.set]

/-- Evaluation of the collision pass on the concrete frame `wC2`. -/
lemma evalC2 : GameWorld.handle_collisions pdQ wC2 0 = .ok (wC2after, 2, logC2) := by
  norm_num [GameWorld.handle_collisions, enemy_loop, enemy_step, contact_step,
    bullet_scan, hits, Enemy.rect, Rect.colliderect, Rect.collidepoint, trunc,
    playerRect, Enemy.take_damage, Enemy.is_dead, removeFirstIdx,
    spawn_particles, PARTICLE_COLORS, wC2, wC2after, logC2, pdQ, eC2dead,
    pQ300, Int.tdiv, range1, range12, dummyEnemy, dummyBullet,
    List.replicate, List.getD, List.set]

/-- C2: over any completed collision pass, the score rises by exactly 5 for
each enemy removed at the bullet-kill site (the `score += 5` branch, marked
`Event.killByBullet` in the log) and changes in no other way; in particular
enemies removed by the player-contact check contribute nothing. -/
theorem c2_bullet_kills_worth_five {K : Type} [LinearOrderedField K]
    [FloorRing K] (pd : ℕ → ℕ → ParticleDraw K) (w : GameWorld K) (pc : ℕ)
    (w' : GameWorld K) (pc' : ℕ) (log : List (Event K))
    (h : GameWorld.handle_collisions pd w pc = .ok (w', pc', log)) :
    w'.score = w.score + 5 * countB log :=
  (handle_collisions_ok pd w pc w' pc' log h).2.1

/-- Witness for C2: the concrete frame `wC2` completes with one bullet kill,
and the score moves from 0 to 5 accordingly. -/
theorem c2_bullet_kills_worth_five_witness :
    GameWorld.handle_collisions pdQ wC2 0 = .ok (wC2after, 2, logC2) ∧
    wC2after.score = wC2.score + 5 * countB logC2 :=
  ⟨evalC2, c2_bullet_kills_worth_five pdQ wC2 0 wC2after 2 logC2 evalC2⟩

/-- C6: in the per-enemy bullet loop, only the first hitting bullet of the
snapshot is processed (the loop breaks), and that bullet either spends one
pierce charge and stays alive (`pierce > 0`) or is marked not-alive
(`pierce = 0`); every other bullet is untouched. -/
theorem c6_first_hit_pierce_break {K : Type} [LinearOrderedField K]
    [FloorRing K] (pd : ℕ → ℕ → ParticleDraw K) (i : ℕ) (ks : List ℕ)
    (st st' : PassSt K) (h : bullet_scan pd i ks st = .ok st') :
    (first_hit (st.heap.getD i dummyEnemy) st.bullets ks = none → st' = st) ∧
    ∀ k, first_hit (st.heap.getD i dummyEnemy) st.bullets ks = some k →
      st'.bullets = st.bullets.set k
        (if 0 < (st.bullets.getD k dummyBullet).pierce then
          { st.bullets.getD k dummyBullet with
              pierce := (st.bullets.getD k dummyBullet).pierce - 1 }
         else { st.bullets.getD k dummyBullet with alive := false }) := by
  induction ks with
  | nil =>
      simp only [bullet_scan] at h
      cases h
      exact ⟨fun _ => rfl, fun k hk => by simp [first_hit] at hk⟩
  | cons k rest ih =>
      simp only [bullet_scan] at h
      split at h
      case isTrue hhit =>
        split at h
        · cases h
        case h_2 st2 heq =>
          cases h
          have hbul : st2.bullets = st.bullets := by
            split at heq
            · split at heq
              · cases heq
              case h_2 alive' hrem => cases heq; rfl
            · cases heq; rfl
          refine ⟨fun habs => ?_, fun k' hk' => ?_⟩
          · unfold first_hit at habs
            rw [if_pos hhit] at habs
            cases habs
          · unfold first_hit at hk'
            rw [if_pos hhit] at hk'
            cases hk'
            dsimp only
            rw [hbul]
      case isFalse hhit =>
        have hrec := ih h
        refine ⟨fun hnone => ?_, fun k' hk' => ?_⟩
        · apply hrec.1
          unfold first_hit at hnone
          rw [if_neg hhit] at hnone
          exact hnone
        · apply hrec.2
          unfold first_hit at hk'
          rw [if_neg hhit] at hk'
          exact hk'

end CollisionClaims

/-- Witness for C6: in `stW` the pierce-1 bullet is the first hit on enemy 0;
after that loop it is still alive with pierce 0 and the characterisation of
`c6_first_hit_pierce_break` applies; the same bullet then hits enemy 1 in the
same frame, after which it is not alive. -/
theorem c6_first_hit_pierce_break_witness :
    first_hit (stW.heap.getD 0 dummyEnemy) stW.bullets [0] = some 0 ∧
    bullet_scan pdQ 0 [0] stW = .ok stWmid ∧
    stWmid.bullets = stW.bullets.set 0
      (if 0 < (stW.bullets.getD 0 dummyBullet).pierce then
        { stW.bullets.getD 0 dummyBullet with
            pierce := (stW.bullets.getD 0 dummyBullet).pierce - 1 }
       else { stW.bullets.getD 0 dummyBullet with alive := false }) ∧
    bullet_scan pdQ 1 [0] stWmid = .ok stWend ∧
    (stWend.bullets.getD 0 dummyBullet).alive = false := by
  have h1 : bullet_scan pdQ 0 [0] stW = .ok stWmid := by
    norm_num [bullet_scan, hits, Enemy.rect, Rect.collidepoint, trunc,
      Enemy.take_damage, Enemy.is_dead, removeFirstIdx, spawn_particles,
      PARTICLE_COLORS, stW, stWmid, eA, eB, eAdead, bW, pQ300, pdQ, range12,
      dummyEnemy, dummyBullet, List.replicate, List.getD, List.set]
  have h2 : bullet_scan pdQ 1 [0] stWmid = .ok stWend := by
    norm_num [bullet_scan, hits, Enemy.rect, Rect.collidepoint, trunc,
      Enemy.take_damage, Enemy.is_dead, removeFirstIdx, spawn_particles,
      PARTICLE_COLORS, stWmid, stWend, eA, eB, eAdead, eBdead, bW, pQ300,
      pQ305, pdQ, range12, dummyEnemy, dummyBullet, List.replicate,
      List.getD, List.set]
  have hfh : first_hit (stW.heap.getD 0 dummyEnemy) stW.bullets [0] = some 0 := by
    norm_num [first_hit, hits, Enemy.rect, Rect.collidepoint, trunc, stW, eA,
      bW, dummyEnemy, dummyBullet, List.getD]
  refine ⟨hfh, h1, ?_, h2, by norm_num [stWend, dummyBullet, List.getD]⟩
  exact (c6_first_hit_pierce_break pdQ 0 [0] stW stWmid h1).2 0 hfh

section WeaponClaims

lemma atan2_zero_one : atan2 (0 : ℝ) 1 = 0 := by
  have h : (⟨1, 0⟩ : ℂ) = 1 := by
    apply Complex.ext <;> simp
  rw [atan2, h, Complex.arg_one]

lemma aimDir_ne_zero (position target : ℝ × ℝ) :
    ¬ aimDir position target = (0, 0) := by
  simp only [aimDir]
  split
  · norm_num [Prod.ext_iff]
  case isFalse hls =>
    intro h
    apply hls
    rw [h]
    simp [length_squared]

lemma rotate_neg_base_angle (d : ℝ × ℝ) (hd : ¬ d = (0, 0)) :
    rotate (1, 0) (-(angle_to d (1, 0))) = Vec.normalize d := by
  have hz : (⟨d.1, d.2⟩ : ℂ) ≠ 0 := by
    intro h
    rw [Complex.ext_iff] at h
    simp only [Complex.zero_re, Complex.zero_im] at h
    exact hd (Prod.ext h.1 h.2)
  have harg : -(angle_to d (1, 0)) * Real.pi / 180 = Complex.arg ⟨d.1, d.2⟩ := by
    rw [angle_to, atan2_zero_one, atan2]
    field_simp
  simp only [rotate]
  rw [harg, Complex.cos_arg hz, Complex.sin_arg, Complex.abs_apply,
    Complex.normSq_mk]
  simp [Vec.normalize]

/-- C5: the cooldown gate of `try_fire` — a positive timer yields an empty
burst and an unchanged weapon; a successful fire resets the timer to the
cooldown and returns one bullet per projectile; `Weapon.update` decays the
timer as `max(0, timer - dt)`, which is never negative. -/
theorem c5_cooldown_timer_behaviour (w : Weapon ℝ) (position target : ℝ × ℝ)
    (dt : ℝ) :
    (0 < w.timer → w.try_fire position target = (w, [])) ∧
    (w.timer ≤ 0 → (w.try_fire position target).1.timer = w.cooldown ∧
      (w.try_fire position target).2.length = w.projectiles) ∧
    (Weapon.update w dt).timer = max 0 (w.timer - dt) ∧
    0 ≤ (Weapon.update w dt).timer := by
  refine ⟨fun h => ?_, fun h => ?_, rfl, le_max_left 0 _⟩
  · rw [Weapon.try_fire, if_pos h]
  · rw [Weapon.try_fire, if_neg (not_lt.mpr h)]
    exact ⟨rfl, by rw [List.length_map, List.length_range]⟩

/-- Witness for C5: the Seed Blaster scenario of the spec — fire (1 bullet,
timer reset to 0.25), tick 0.1 seconds (timer 0.15), and the second fire
returns no bullets and leaves the weapon unchanged. -/
theorem c5_cooldown_timer_behaviour_witness :
    (sbW.try_fire (0, 0) (1, 0)).2.length = 1 ∧
    (sbW.try_fire (0, 0) (1, 0)).1.timer = 0.25 ∧
    (Weapon.update (sbW.try_fire (0, 0) (1, 0)).1 0.1).timer = 0.15 ∧
    (Weapon.update (sbW.try_fire (0, 0) (1, 0)).1 0.1).try_fire (0, 0) (1, 0) =
      (Weapon.update (sbW.try_fire (0, 0) (1, 0)).1 0.1, []) := by
  have hle : sbW.timer ≤ 0 := by norm_num [sbW]
  have hs := (c5_cooldown_timer_behaviour sbW ((0 : ℝ), 0) ((1 : ℝ), 0) 0.1).2.1 hle
  have hlen : (sbW.try_fire (0, 0) (1, 0)).2.length = 1 := by
    rw [hs.2]; rfl
  have ht1 : (sbW.try_fire (0, 0) (1, 0)).1.timer = 0.25 := by
    rw [hs.1]; rfl
  have ht2 : (Weapon.update (sbW.try_fire (0, 0) (1, 0)).1 0.1).timer = 0.15 := by
    rw [(c5_cooldown_timer_behaviour (sbW.try_fire (0, 0) (1, 0)).1
      ((0 : ℝ), 0) ((1 : ℝ), 0) 0.1).2.2.1, ht1]
    norm_num
  have hpos : 0 < (Weapon.update (sbW.try_fire (0, 0) (1, 0)).1 0.1).timer := by
    rw [ht2]; norm_num
  exact ⟨hlen, ht1, ht2,
    (c5_cooldown_timer_behaviour _ ((0 : ℝ), 0) ((1 : ℝ), 0) 0).1 hpos⟩

end WeaponClaims

section SpreadClaims

lemma rotate_east_90 : rotate ((1 : ℝ), (0 : ℝ)) 90 = (0, 1) := by
  simp only [rotate]
  rw [show (90 : ℝ) * Real.pi / 180 = Real.pi / 2 by ring]
  simp [Real.cos_pi_div_two, Real.sin_pi_div_two]

/-- C3 counterexample: the claim says spread is ignored for a single
projectile.  It is not: `c3W` has 1 projectile, spread 180 and unit bullet
speed; aimed due east from the origin its bullet flies at (0, 1) — the start
angle `base - spread/2 = -90°` — instead of the aim direction (1, 0). -/
theorem c3_single_shot_ignores_spread_counterexample :
    (c3W.try_fire (0, 0) (1, 0)).2 =
      [⟨(0, 0), (0, 1), (0, 0, 0), 1, 6, 0, true⟩] ∧
    ¬ ((0 : ℝ), (1 : ℝ)) =
        vmul c3W.bullet_speed (Vec.normalize (vsub (1, 0) (0, 0))) := by
  constructor
  · rw [Weapon.try_fire, if_neg (by norm_num [c3W])]
    norm_num [c3W, vsub, length_squared, atan2_zero_one, angle_to, vmul,
      rotate_east_90, Prod.ext_iff]
  · norm_num [c3W, vsub, length_squared, Vec.normalize, vmul, Prod.ext_iff,
      Real.sqrt_one]

/-- C3 (amended): for `projectiles = 1` a successful `try_fire` returns one
bullet whose velocity is `bullet_speed` times the unit vector at
`base_angle - spread/2`; only when `spread = 0` does the shot fly along the
exact (normalised) aim direction. -/
theorem c3_single_shot_offset_by_half_spread (w : Weapon ℝ)
    (position target : ℝ × ℝ) (h1 : w.projectiles = 1) (h0 : w.timer ≤ 0) :
    (w.try_fire position target).2 =
      [⟨position,
        vmul w.bullet_speed
          (rotate (1, 0)
            (-(angle_to (aimDir position target) (1, 0) - w.spread / 2))),
        w.color, w.bullet_damage, 6, w.pierce, true⟩] ∧
    (w.spread = 0 → (w.try_fire position target).2 =
      [⟨position, vmul w.bullet_speed (Vec.normalize (aimDir position target)),
        w.color, w.bullet_damage, 6, w.pierce, true⟩]) := by
  have hmain : (w.try_fire position target).2 =
      [⟨position,
        vmul w.bullet_speed
          (rotate (1, 0)
            (-(angle_to (aimDir position target) (1, 0) - w.spread / 2))),
        w.color, w.bullet_damage, 6, w.pierce, true⟩] := by
    rw [Weapon.try_fire, if_neg (not_lt.mpr h0)]
    simp only [aimDir, h1, range1, List.map_cons, List.map_nil,
      Nat.cast_zero, zero_mul, add_zero]
  refine ⟨hmain, fun hs => ?_⟩
  rw [hmain, hs]
  rw [show angle_to (aimDir position target) (1, 0) - (0 : ℝ) / 2 =
        angle_to (aimDir position target) (1, 0) by ring]
  rw [rotate_neg_base_angle (aimDir position target) (aimDir_ne_zero position target)]

/-- Witness for C3 (amended): the Seed Blaster (1 projectile, spread 0)
aimed due east fires a single bullet with velocity (520, 0). -/
theorem c3_single_shot_offset_by_half_spread_witness :
    (sbW.try_fire (0, 0) (1, 0)).2 =
      [⟨(0, 0), (520, 0), (255, 235, 120), 15, 6, 0, true⟩] := by
  have h := (c3_single_shot_offset_by_half_spread sbW (0, 0) (1, 0) rfl
    (by norm_num [sbW])).2 rfl
  rw [h]
  norm_num [sbW, aimDir, vsub, length_squared, Vec.normalize, vmul,
    Real.sqrt_one, Prod.ext_iff]

end SpreadClaims

/-- C7: for `projectiles = n ≥ 2` and a successful fire, `try_fire` returns
`n` bullets; bullet `i` flies at `shotAngle i = base - spread/2 + i * step`;
the first and last angles are the inclusive endpoints `base ∓ spread/2`;
consecutive angles differ by `step = spread / (n - 1)`; and for odd `n` the
middle bullet flies along the exact normalised aim direction. -/
theorem c7_multi_projectile_even_spread (w : Weapon ℝ) (position target : ℝ × ℝ)
    (hn : 2 ≤ w.projectiles) (h0 : w.timer ≤ 0) :
    (w.try_fire position target).2.length = w.projectiles ∧
    (∀ i, i < w.projectiles →
      ((w.try_fire position target).2.getD i dummyBullet).velocity =
        vmul w.bullet_speed (rotate (1, 0) (-(shotAngle w position target i)))) ∧
    shotAngle w position target 0 =
      angle_to (aimDir position target) (1, 0) - w.spread / 2 ∧
    shotAngle w position target (w.projectiles - 1) =
      angle_to (aimDir position target) (1, 0) + w.spread / 2 ∧
    (∀ i, shotAngle w position target (i + 1) - shotAngle w position target i =
      w.spread / ((w.projectiles - 1 : ℕ) : ℝ)) ∧
    (w.projectiles % 2 = 1 →
      ((w.try_fire position target).2.getD (w.projectiles / 2) dummyBullet).velocity =
        vmul w.bullet_speed (Vec.normalize (aimDir position target))) := by
  have hmax : max 1 (w.projectiles - 1) = w.projectiles - 1 :=
    max_eq_right (by omega)
  have hcast : ((w.projectiles - 1 : ℕ) : ℝ) ≠ 0 := by
    rw [Nat.cast_ne_zero]
    omega
  have hlen : (w.try_fire position target).2.length = w.projectiles := by
    rw [Weapon.try_fire, if_neg (not_lt.mpr h0)]
    rw [List.length_map, List.length_range]
  have hget : ∀ i, i < w.projectiles →
      ((w.try_fire position target).2.getD i dummyBullet).velocity =
        vmul w.bullet_speed (rotate (1, 0) (-(shotAngle w position target i))) := by
    intro i hi
    rw [Weapon.try_fire, if_neg (not_lt.mpr h0)]
    simp only [List.getD_eq_getElem?_getD, List.getElem?_map,
      List.getElem?_range hi, Option.map_some', Option.getD_some]
    simp only [shotAngle, aimDir, if_pos (by omega : 1 < w.projectiles)]
  have hend : shotAngle w position target (w.projectiles - 1) =
      angle_to (aimDir position target) (1, 0) + w.spread / 2 := by
    rw [shotAngle, hmax]
    rw [show ((w.projectiles - 1 : ℕ) : ℝ) * (w.spread / ((w.projectiles - 1 : ℕ) : ℝ)) =
        w.spread from by
      rw [mul_div_assoc', mul_comm, mul_div_assoc, div_self hcast, mul_one]]
    ring
  have hstep : ∀ i, shotAngle w position target (i + 1) - shotAngle w position target i =
      w.spread / ((w.projectiles - 1 : ℕ) : ℝ) := by
    intro i
    rw [shotAngle, shotAngle, hmax]
    push_cast
    ring
  refine ⟨hlen, hget, by rw [shotAngle]; push_cast; ring, hend, hstep, fun hodd => ?_⟩
  obtain ⟨m, hm⟩ : ∃ m, w.projectiles = 2 * m + 1 := ⟨w.projectiles / 2, by omega⟩
  have hm1 : 1 ≤ m := by omega
  have hmid : w.projectiles / 2 = m := by omega
  have hangle : shotAngle w position target m =
      angle_to (aimDir position target) (1, 0) := by
    rw [shotAngle, hmax, hm]
    rw [show (2 * m + 1 - 1 : ℕ) = 2 * m from by omega]
    rw [show ((m : ℕ) : ℝ) * (w.spread / ((2 * m : ℕ) : ℝ)) = w.spread / 2 from by
      push_cast
      rw [mul_div_assoc']
      rw [show (m : ℝ) * w.spread / (2 * (m : ℝ)) = w.spread / 2 * ((m : ℝ) / (m : ℝ)) from by ring]
      rw [div_self (by exact_mod_cast Nat.one_le_iff_ne_zero.mp hm1), mul_one]]
    ring
  rw [hmid, hget m (by omega), hangle,
    rotate_neg_base_angle (aimDir position target) (aimDir_ne_zero position target)]

/-- Witness for C7: the Thorn Fork (3 projectiles, spread 12) aimed due east
returns 3 bullets, and the middle one flies at exactly (420, 0) — the raw
aim direction scaled by the bullet speed. -/
theorem c7_multi_projectile_even_spread_witness :
    (tfW.try_fire (0, 0) (1, 0)).2.length = 3 ∧
    ((tfW.try_fire (0, 0) (1, 0)).2.getD 1 dummyBullet).velocity = (420, 0) := by
  have h := c7_multi_projectile_even_spread tfW (0, 0) (1, 0)
    (by norm_num [tfW]) (by norm_num [tfW])
  constructor
  · rw [h.1]; rfl
  · have hm := h.2.2.2.2.2 (by rfl)
    rw [show tfW.projectiles / 2 = 1 from rfl] at hm
    rw [hm]
    norm_num [tfW, aimDir, vsub, length_squared, Vec.normalize, vmul,
      Real.sqrt_one, Prod.ext_iff]

section UpdateLemmas

lemma pre_world_fields (w : GameWorld ℝ) (dt : ℝ) (env : Env) :
    (pre_world w dt env).player.health = w.player.health ∧
    (pre_world w dt env).bullets = w.bullets ∧
    (pre_world w dt env).enemies = w.enemies ∧
    (pre_world w dt env).score = w.score ∧
    (pre_world w dt env).spawn_timer = w.spawn_timer ∧
    (pre_world w dt env).spawn_interval = w.spawn_interval ∧
    (pre_world w dt env).elapsed = w.elapsed + dt := by
  simp only [pre_world, Player.handle_input, Player.keep_in_bounds]
  cases hw : w.player.weapon <;> simp [hw]

lemma fire_step_dead (w : GameWorld ℝ) (env : Env)
    (hd : w.player.health ≤ 0) : fire_step w env = (w, []) := by
  simp only [fire_step]
  rw [if_neg]
  intro hcond
  exact absurd hcond.2.2 (by omega)

lemma fire_step_fields (w : GameWorld ℝ) (env : Env) :
    (fire_step w env).1.player.health = w.player.health ∧
    (fire_step w env).1.enemies = w.enemies ∧
    (fire_step w env).1.score = w.score ∧
    (fire_step w env).1.spawn_timer = w.spawn_timer ∧
    (fire_step w env).1.spawn_interval = w.spawn_interval ∧
    (fire_step w env).1.elapsed = w.elapsed := by
  simp only [fire_step]
  split
  · split
    · simp
    · split <;> simp
  · simp

lemma move_step_fields (w : GameWorld ℝ) (dt : ℝ) :
    (move_step w dt).player = w.player ∧
    (move_step w dt).score = w.score ∧
    (move_step w dt).spawn_timer = w.spawn_timer ∧
    (move_step w dt).spawn_interval = w.spawn_interval ∧
    (move_step w dt).elapsed = w.elapsed ∧
    (move_step w dt).bullets.length ≤ w.bullets.length ∧
    (move_step w dt).enemies.length = w.enemies.length := by
  refine ⟨by simp [move_step], by simp [move_step], by simp [move_step],
    by simp [move_step], by simp [move_step], ?_, by simp [move_step]⟩
  simp only [move_step]
  exact le_trans (List.length_filter_le _ _) (le_of_eq (List.length_map _ _))

lemma post_step_fields (w1 : GameWorld ℝ) (dt : ℝ) (sd : ℕ → SpawnChoice)
    (sc : ℕ) :
    (post_step w1 dt sd sc).1.player = w1.player ∧
    (post_step w1 dt sd sc).1.score = w1.score ∧
    (post_step w1 dt sd sc).1.spawn_interval = w1.spawn_interval ∧
    (post_step w1 dt sd sc).1.elapsed = w1.elapsed ∧
    (post_step w1 dt sd sc).1.bullets = w1.bullets ∧
    (w1.player.health ≤ 0 →
      (post_step w1 dt sd sc).1.spawn_timer = w1.spawn_timer ∧
      (post_step w1 dt sd sc).1.enemies = w1.enemies ∧
      (post_step w1 dt sd sc).2 = sc) := by
  simp only [post_step]
  split
  case isTrue h =>
    exact ⟨rfl, rfl, rfl, rfl, rfl, fun _ => ⟨rfl, rfl, rfl⟩⟩
  case isFalse h =>
    have halive : 0 < w1.player.health := not_not.mp h
    split
    · exact ⟨by simp [spawn_enemy_wave], by simp [spawn_enemy_wave],
        by simp [spawn_enemy_wave], by simp [spawn_enemy_wave],
        by simp [spawn_enemy_wave], fun hdd => absurd halive (by omega)⟩
    · exact ⟨rfl, rfl, rfl, rfl, rfl, fun hdd => absurd halive (by omega)⟩

lemma post_step_spawn (w1 : GameWorld ℝ) (dt : ℝ) (sd : ℕ → SpawnChoice)
    (sc : ℕ) (halive : 0 < w1.player.health)
    (htimer : w1.spawn_timer - dt ≤ 0) :
    (post_step w1 dt sd sc).1.spawn_timer =
      spawn_reset w1.spawn_interval w1.elapsed := by
  simp only [post_step]
  rw [if_neg (not_not.mpr halive), if_pos htimer]
  simp [spawn_enemy_wave]

end UpdateLemmas

section UpdateClaims

/-- C8: whenever `GameWorld.update` returns (rather than propagating the
collision pass's exception), the player's health is non-negative — the
collision pass clamps it at 0 and no later step of the frame touches it. -/
theorem c8_player_health_floor (w : GameWorld ℝ) (dt : ℝ) (env : Env)
    (pd : ℕ → ℕ → ParticleDraw ℝ) (sd : ℕ → SpawnChoice) (pc sc : ℕ)
    (w' : GameWorld ℝ) (pc' sc' : ℕ) (log : List (Event ℝ))
    (h : GameWorld.update w dt env pd sd pc sc = .ok (w', pc', sc', log)) :
    0 ≤ w'.player.health := by
  simp only [GameWorld.update] at h
  split at h
  · cases h
  case h_2 x w1 pc1 log1 heq =>
    simp only [Except.ok.injEq, Prod.mk.injEq] at h
    obtain ⟨hw', hpc', hsc', hlog⟩ := h
    rw [← hw', (post_step_fields w1 dt sd sc).1]
    exact (handle_collisions_ok pd _ pc w1 pc1 log1 heq).1

/-- C4 (amended): an update with the player dead at entry leaves
`spawn_timer` and `spawn_interval` unchanged, consumes no spawn draws, and
adds no enemy; `elapsed`, however, still advances by `dt`. -/
theorem c4_dead_player_halts_spawner (w : GameWorld ℝ) (dt : ℝ) (env : Env)
    (pd : ℕ → ℕ → ParticleDraw ℝ) (sd : ℕ → SpawnChoice) (pc sc : ℕ)
    (w' : GameWorld ℝ) (pc' sc' : ℕ) (log : List (Event ℝ))
    (hdead : w.player.health ≤ 0)
    (h : GameWorld.update w dt env pd sd pc sc = .ok (w', pc', sc', log)) :
    w'.spawn_timer = w.spawn_timer ∧
    w'.spawn_interval = w.spawn_interval ∧
    sc' = sc ∧
    w'.enemies.length ≤ w.enemies.length ∧
    w'.elapsed = w.elapsed + dt := by
  have hdw : (pre_world w dt env).player.health ≤ 0 := by
    rw [(pre_world_fields w dt env).1]
    exact hdead
  simp only [GameWorld.update] at h
  rw [fire_step_dead _ env hdw] at h
  dsimp only at h
  split at h
  · cases h
  case h_2 x w1 pc1 log1 heq =>
    simp only [Except.ok.injEq, Prod.mk.injEq] at h
    obtain ⟨hw', hpc', hsc', hlog⟩ := h
    obtain ⟨hh0, hsc, hbl, hel, hd0, hev, hst, hsi, hep, _, _, _, _, _, _⟩ :=
      handle_collisions_ok pd _ pc w1 pc1 log1 heq
    have hmw := move_step_fields (pre_world w dt env) dt
    have hpw := pre_world_fields w dt env
    have hw1dead : w1.player.health ≤ 0 := by
      rw [hd0 (by rw [hmw.1, hpw.1]; exact hdead)]
    obtain ⟨hptimer, hpenem, hpsc⟩ :=
      (post_step_fields w1 dt sd sc).2.2.2.2.2 hw1dead
    rw [← hw', ← hsc']
    refine ⟨?_, ?_, hpsc, ?_, ?_⟩
    · rw [hptimer, hst, hmw.2.2.1, hpw.2.2.2.2.1]
    · rw [(post_step_fields w1 dt sd sc).2.2.1, hsi, hmw.2.2.2.1,
        hpw.2.2.2.2.2.1]
    · rw [hpenem]
      calc w1.enemies.length
          ≤ (move_step (pre_world w dt env) dt).enemies.length := hel
        _ = (pre_world w dt env).enemies.length := hmw.2.2.2.2.2.2
        _ = w.enemies.length := by rw [hpw.2.2.1]
    · rw [(post_step_fields w1 dt sd sc).2.2.2.1, hep, hmw.2.2.2.2.1,
        hpw.2.2.2.2.2.2]

/-- C10: with the player dead at entry the fire input is ignored entirely —
the frame result equals the result with the fire button released — and any
completed frame emits no shoot sound and cannot gain bullets. -/
theorem c10_dead_player_never_fires (w : GameWorld ℝ) (dt : ℝ) (env : Env)
    (pd : ℕ → ℕ → ParticleDraw ℝ) (sd : ℕ → SpawnChoice) (pc sc : ℕ)
    (hdead : w.player.health ≤ 0) :
    GameWorld.update w dt env pd sd pc sc =
      GameWorld.update w dt { env with mouse_pressed := false } pd sd pc sc ∧
    ∀ w' pc' sc' log,
      GameWorld.update w dt env pd sd pc sc = .ok (w', pc', sc', log) →
        ¬ Event.audio "shoot" ∈ log ∧
        w'.bullets.length ≤ w.bullets.length := by
  have hdw : (pre_world w dt env).player.health ≤ 0 := by
    rw [(pre_world_fields w dt env).1]
    exact hdead
  constructor
  · have hpre : pre_world w dt { env with mouse_pressed := false } =
        pre_world w dt env := rfl
    simp only [GameWorld.update]
    rw [hpre, fire_step_dead _ env hdw,
      fire_step_dead _ { env with mouse_pressed := false } hdw]
  · intro w' pc' sc' log h
    simp only [GameWorld.update] at h
    rw [fire_step_dead _ env hdw] at h
    dsimp only at h
    split at h
    · cases h
    case h_2 x w1 pc1 log1 heq =>
      simp only [Except.ok.injEq, Prod.mk.injEq] at h
      obtain ⟨hw', hpc', hsc', hlog⟩ := h
      obtain ⟨hh0, hsc, hbl, hel, hd0, hev, _⟩ :=
        handle_collisions_ok pd _ pc w1 pc1 log1 heq
      constructor
      · intro hmem
        rw [← hlog, List.nil_append] at hmem
        exact hev _ hmem rfl
      · rw [← hw', (post_step_fields w1 dt sd sc).2.2.2.2.1]
        calc w1.bullets.length
            = (move_step (pre_world w dt env) dt).bullets.length := hbl
          _ ≤ (pre_world w dt env).bullets.length :=
              (move_step_fields (pre_world w dt env) dt).2.2.2.2.2.1
          _ = w.bullets.length := by rw [(pre_world_fields w dt env).2.1]

/-- C9: when a frame completes with the player alive and the decremented
spawn timer at or below zero, the timer is reset to
`max(0.4, spawn_interval - elapsed * 0.01)` (with `elapsed` already advanced
by `dt`); for the baseline interval 1.4 this reset is strictly smaller at
elapsed 60 than at elapsed 0, non-increasing in elapsed, and never below
0.4. -/
theorem c9_spawn_timer_reset (w : GameWorld ℝ) (dt : ℝ) (env : Env)
    (pd : ℕ → ℕ → ParticleDraw ℝ) (sd : ℕ → SpawnChoice) (pc sc : ℕ)
    (w' : GameWorld ℝ) (pc' sc' : ℕ) (log : List (Event ℝ))
    (h : GameWorld.update w dt env pd sd pc sc = .ok (w', pc', sc', log))
    (halive : 0 < w'.player.health) (htimer : w.spawn_timer - dt ≤ 0) :
    w'.spawn_timer = spawn_reset w.spawn_interval (w.elapsed + dt) ∧
    spawn_reset (1.4 : ℝ) 60 < spawn_reset (1.4 : ℝ) 0 ∧
    (∀ a b : ℝ, a ≤ b → spawn_reset (1.4 : ℝ) b ≤ spawn_reset (1.4 : ℝ) a) ∧
    (∀ e : ℝ, (0.4 : ℝ) ≤ spawn_reset (1.4 : ℝ) e) := by
  refine ⟨?_, by norm_num [spawn_reset], ?_, fun e => le_max_left _ _⟩
  · simp only [GameWorld.update] at h
    split at h
    · cases h
    case h_2 x w1 pc1 log1 heq =>
      simp only [Except.ok.injEq, Prod.mk.injEq] at h
      obtain ⟨hw', hpc', hsc', hlog⟩ := h
      obtain ⟨hh0, hsc, hbl, hel, hd0, hev, hst, hsi, hep, _⟩ :=
        handle_collisions_ok pd _ pc w1 pc1 log1 heq
      have hmw := move_step_fields (fire_step (pre_world w dt env) env).1 dt
      have hfw := fire_step_fields (pre_world w dt env) env
      have hpw := pre_world_fields w dt env
      have halive1 : 0 < w1.player.health := by
        rw [← hw', (post_step_fields w1 dt sd sc).1] at halive
        exact halive
      have htimer1 : w1.spawn_timer - dt ≤ 0 := by
        rw [hst, hmw.2.2.1, hfw.2.2.2.1, hpw.2.2.2.2.1]
        exact htimer
      rw [← hw', post_step_spawn w1 dt sd sc halive1 htimer1]
      rw [hsi, hmw.2.2.2.1, hfw.2.2.2.2.1, hpw.2.2.2.2.2.1]
      rw [hep, hmw.2.2.2.2.1, hfw.2.2.2.2.2, hpw.2.2.2.2.2.2]
  · intro a b hab
    simp only [spawn_reset]
    exact max_le_max le_rfl (by linarith)

end UpdateClaims

section UpdateWitnesses

/-- One 1-second frame on the dead world: the player stays put, nothing
fires, no wave spawns, and only `elapsed` changes. -/
lemma evalDead : GameWorld.update wDead 1 envN pdR sdR 0 0 =
    .ok ({ wDead with elapsed := 1 }, 0, 0, []) := by
  norm_num [GameWorld.update, pre_world, fire_step, move_step, post_step,
    Player.handle_input, Player.keep_in_bounds, length_squared, vadd, vmul,
    GameWorld.handle_collisions, enemy_loop, playerRect, trunc, Int.tdiv,
    envN, wDead, min_def, max_def]

/-- One 1-second frame on the fresh world: the spawn timer fires, one
Sproutling spawns at the top edge, and the timer resets to 1.39. -/
lemma evalSpawn : GameWorld.update freshWorld 1 envN pdR sdR 0 0 =
    .ok (wSpawn, 0, 1, []) := by
  norm_num [GameWorld.update, pre_world, fire_step, move_step, post_step,
    Player.handle_input, Player.keep_in_bounds, length_squared, vadd, vmul,
    GameWorld.handle_collisions, enemy_loop, playerRect, trunc, Int.tdiv,
    envN, freshWorld, wSpawn, spawnedE, spawn_enemy_wave, spawn_one,
    spawn_reset, ENEMY_TYPES, SCREEN_WIDTH, SCREEN_HEIGHT, PLAYER_SPEED,
    sdR, range1, min_def, max_def]

/-- C4 counterexample: on the dead world `wDead`, a 1-second update returns
normally, yet `elapsed` afterwards differs from `elapsed` before — the claim
that the whole spawner state (including `elapsed`) is unchanged is false. -/
theorem c4_elapsed_advances_when_dead_counterexample :
    wDead.player.health ≤ 0 ∧
    GameWorld.update wDead 1 envN pdR sdR 0 0 =
      .ok ({ wDead with elapsed := 1 }, 0, 0, []) ∧
    ¬ ({ wDead with elapsed := 1 } : GameWorld ℝ).elapsed = wDead.elapsed := by
  refine ⟨by norm_num [wDead], evalDead, by norm_num [wDead]⟩

/-- Witness for C4 (amended): on the dead world the spawn timer keeps its
value 5 while `elapsed` advances by the frame's dt. -/
theorem c4_dead_player_halts_spawner_witness :
    wDead.player.health ≤ 0 ∧
    ({ wDead with elapsed := 1 } : GameWorld ℝ).spawn_timer = wDead.spawn_timer ∧
    ({ wDead with elapsed := 1 } : GameWorld ℝ).elapsed = wDead.elapsed + 1 := by
  have hd : wDead.player.health ≤ 0 := by norm_num [wDead]
  have h := c4_dead_player_halts_spawner wDead 1 envN pdR sdR 0 0
    ({ wDead with elapsed := 1 }) 0 0 [] hd evalDead
  exact ⟨hd, h.1, h.2.2.2.2⟩

/-- Witness for C8: the fresh-world frame completes and the resulting health
is non-negative. -/
theorem c8_player_health_floor_witness : 0 ≤ wSpawn.player.health :=
  c8_player_health_floor freshWorld 1 envN pdR sdR 0 0 wSpawn 0 1 [] evalSpawn

/-- Witness for C9: the fresh-world frame spawns a wave and its resulting
timer equals the reset formula at the advanced elapsed time. -/
theorem c9_spawn_timer_reset_witness :
    GameWorld.update freshWorld 1 envN pdR sdR 0 0 = .ok (wSpawn, 0, 1, []) ∧
    wSpawn.spawn_timer =
      spawn_reset (freshWorld : GameWorld ℝ).spawn_interval
        ((freshWorld : GameWorld ℝ).elapsed + 1) := by
  refine ⟨evalSpawn, ?_⟩
  exact (c9_spawn_timer_reset freshWorld 1 envN pdR sdR 0 0 wSpawn 0 1 []
    evalSpawn (by norm_num [wSpawn, freshWorld]) (by norm_num [freshWorld])).1

/-- Witness for C10: the dead-world frame is identical with the fire button
released, emits no shoot sound and gains no bullet. -/
theorem c10_dead_player_never_fires_witness :
    GameWorld.update wDead 1 envN pdR sdR 0 0 =
      GameWorld.update wDead 1 { envN with mouse_pressed := false } pdR sdR 0 0 ∧
    ¬ Event.audio "shoot" ∈ ([] : List (Event ℝ)) ∧
    ({ wDead with elapsed := 1 } : GameWorld ℝ).bullets.length ≤
      wDead.bullets.length := by
  have hd : wDead.player.health ≤ 0 := by norm_num [wDead]
  have h := c10_dead_player_never_fires wDead 1 envN pdR sdR 0 0 hd
  have h2 := h.2 ({ wDead with elapsed := 1 }) 0 0 [] evalDead
  exact ⟨h.1, h2.1, h2.2⟩

end UpdateWitnesses
